import Mathlib

/-!
Shallow embedding of the recipe-catalog backend (`app/api/recipes.py`,
`app/api/ingredients.py`, `app/models/*.py`).

The relational store is a `Store`: one list per table, in table (row) order.
SQLAlchemy sessions are modelled by explicit state passing: each endpoint is a
function `Store → args → Except ApiError β`; an `Except.error` outcome means the
raised `HTTPException` (or uncaught Python exception) aborted the request before
`session.commit()`, so the transaction rolls back and the store is unchanged
(`commitState` below makes that explicit).  Machine integers of the source are
modelled as `Int` (ids, quantities, measurement codes); Python strings as
`String`.
-/

namespace RecipeApp

/-- Rows of the `ingredients` table (`app/models/ingredient.py`): identity plus
unique name. -/
structure Ingredient where
  id : Int
  name : String
  deriving Repr, DecidableEq

/-- Rows of the `cuisines` table (`app/models/cuisine.py`). -/
structure Cuisine where
  id : Int
  name : String
  deriving Repr, DecidableEq

/-- Rows of the `allergens` table (`app/models/allergen.py`). -/
structure Allergen where
  id : Int
  name : String
  deriving Repr, DecidableEq

/-- Rows of the `recipe_ingredients` table (`app/models/recipe.py`,
class `RecipeIngredient`): a line item of a recipe.  `measurement` is the
stored integer code of `MeasurementEnum` (1 = grams, 2 = pieces,
3 = milliliters; pydantic validates the range on input). -/
structure RecipeIngredient where
  id : Int
  recipe_id : Int
  ingredient_id : Int
  quantity : Int
  measurement : Int
  deriving Repr, DecidableEq

/-- Rows of the `recipes` table (`app/models/recipe.py`, class `Recipe`).
`author_id` models the author foreign key that the API layer reads and writes
(`recipe.author_id`, `Recipe.author`) and that `User.recipes` declares via
`back_populates="author"`; the column is used throughout `app/api/recipes.py`. -/
structure Recipe where
  id : Int
  title : String
  description : String
  cooking_time : Int
  difficulty : Int
  cuisine_id : Option Int
  author_id : Int
  deriving Repr, DecidableEq

/-- The relational store: one list per table, in table row order.  The
`recipe_allergens` association table (`app/models/recipe.py`,
`recipe_allergen_association`) is a list of (recipe_id, allergen_id) pairs. -/
structure Store where
  recipes : List Recipe
  ingredients : List Ingredient
  cuisines : List Cuisine
  allergens : List Allergen
  recipe_ingredients : List RecipeIngredient
  recipe_allergens : List (Int × Int)
  deriving Repr, DecidableEq

/-- Errors surfaced to the caller.  `notFound id` models
`HTTPException(404, detail="<entity> with id {id} not found")` — the offending
id is the payload; `entity` records which table the message names.
`conflict` models the 400 duplicate-name `HTTPException`; `forbidden` the 403
ownership `HTTPException`; `invalidInclude` / `invalidFields` the 400s of the
sub-listing endpoint; `validation` a pydantic/filter validation failure naming
the offending field; `exception` an uncaught Python exception (e.g. a
`ValueError` escaping `int()`). -/
inductive ApiError where
  | notFound (entity : String) (id : Int)
  | conflict (entity : String) (name : String)
  | forbidden (detail : String)
  | invalidInclude (item : String)
  | invalidFields (fields : List String)
  | validation (field : String) (msg : String)
  | exception (msg : String)
  deriving Repr, DecidableEq

/-- Transaction semantics: an endpoint outcome applied to the pre-state.  An
error outcome rolls the session back, committing nothing. -/
def commitState (s : Store) : Except ApiError Store → Store
  | .ok s' => s'
  | .error _ => s

/-- Python truthiness of an `Optional[int]` (`if recipe_update.cuisine_id:`):
`None` and `0` are falsy. -/
def pyTruthyOptInt : Option Int → Bool
  | none => false
  | some n => n != 0

/-- Python truthiness of an `Optional[str]`: `None` and `""` are falsy. -/
def pyTruthyOptStr : Option String → Bool
  | none => false
  | some s => !s.isEmpty

/-- Python truthiness of an `Optional[List[str]]` (`if not self.order_by:`):
`None` and `[]` are falsy. -/
def pyTruthyOptList : Option (List String) → Bool
  | none => false
  | some l => !l.isEmpty

/-- Models `session.get(Model, id)` / `select(Model).where(Model.id == id)` on a
primary key: the first row with that id. -/
def findRecipe (s : Store) (id : Int) : Option Recipe :=
  s.recipes.find? (fun r => r.id == id)

def findIngredient (s : Store) (id : Int) : Option Ingredient :=
  s.ingredients.find? (fun i => i.id == id)

def findCuisine (s : Store) (id : Int) : Option Cuisine :=
  s.cuisines.find? (fun c => c.id == id)

/-- Models `select(Allergen).where(Allergen.id.in_(ids))`: the allergen rows whose id
is in the requested set, in table order. -/
def selectAllergensIn (s : Store) (ids : List Int) : List Allergen :=
  s.allergens.filter (fun a => ids.contains a.id)

/-- The allergen ids currently associated to a recipe (rows of the
`recipe_allergens` association table with the given `recipe_id`). -/
def allergenIdsOf (s : Store) (rid : Int) : List Int :=
  (s.recipe_allergens.filter (fun p => p.1 == rid)).map (fun p => p.2)

/-- The line items of a recipe, in table order. -/
def linesOf (s : Store) (rid : Int) : List RecipeIngredient :=
  s.recipe_ingredients.filter (fun ri => ri.recipe_id == rid)

/-- A line item reduced to the data submitted for it:
(ingredient_id, quantity, measurement). -/
def lineSpec (ri : RecipeIngredient) : Int × Int × Int :=
  (ri.ingredient_id, ri.quantity, ri.measurement)

/-- The submitted line data of a recipe, in table order. -/
def lineSpecsOf (s : Store) (rid : Int) : List (Int × Int × Int) :=
  (linesOf s rid).map lineSpec

/-- Fresh primary key for a new `recipe_ingredients` row (models the database
autoincrement: one more than every existing id). -/
def nextLineId (s : Store) : Int :=
  (s.recipe_ingredients.map (fun ri => ri.id)).foldr max 0 + 1

/-- Fresh primary key for a new `recipes` row. -/
def nextRecipeId (s : Store) : Int :=
  (s.recipes.map (fun r => r.id)).foldr max 0 + 1

/-- One entry of the `recipe_ingredients` list of a create/update payload
(`RecipeIngredientCreate` in `app/api/recipes.py`).  pydantic enforces
`quantity > 0` and `measurement ∈ {1,2,3}` before the handler runs. -/
structure RecipeIngredientCreate where
  ingredient_id : Int
  quantity : Int
  measurement : Int
  deriving Repr, DecidableEq

/-- The `RecipeUpdate` payload of `PUT /recipes/{id}` (`app/api/recipes.py`).
`allergen_ids` and `recipe_ingredients` default to `[]` when absent, so an
absent field and an empty list are the same value here, exactly as in the
pydantic model (`Field(default_factory=list)`). -/
structure RecipeUpdate where
  title : String
  description : String
  cooking_time : Int
  difficulty : Int
  cuisine_id : Option Int
  allergen_ids : List Int
  recipe_ingredients : List RecipeIngredientCreate
  deriving Repr, DecidableEq

/-- The `RecipeCreate` payload of `POST /recipes` — same shape as
`RecipeUpdate`. -/
structure RecipeCreate where
  title : String
  description : String
  cooking_time : Int
  difficulty : Int
  cuisine_id : Option Int
  allergen_ids : List Int
  recipe_ingredients : List RecipeIngredientCreate
  deriving Repr, DecidableEq

/-- The cuisine-resolution step shared by `create_recipe` and `update_recipe`
(`app/api/recipes.py` lines 213-220 and 277-286): when the submitted
`cuisine_id` is truthy, `session.get(Cuisine, cuisine_id)` must find a row or
the handler raises 404; a falsy `cuisine_id` (absent or 0) resolves to no
cuisine. -/
def resolveCuisine (s : Store) (cid? : Option Int) : Except ApiError (Option Cuisine) :=
  if pyTruthyOptInt cid? then
    match findCuisine s (cid?.getD 0) with
    | none => .error (.notFound "Cuisine" (cid?.getD 0))
    | some c => .ok (some c)
  else
    .ok none

/-- The ingredient loop shared by `create_recipe` and `update_recipe`
(`app/api/recipes.py` lines 232-245 and 296-309): for each submitted line in
order, `session.get(Ingredient, ingredient_id)` must find a row or the handler
raises 404 naming that id, short-circuiting the rest of the loop; otherwise a
new `RecipeIngredient` row is built for the recipe.  Fresh ids are assigned
sequentially from `nid` (database autoincrement). -/
def buildLines (s : Store) (rid : Int) :
    List RecipeIngredientCreate → Int → Except ApiError (List RecipeIngredient)
  | [], _ => .ok []
  | d :: rest, nid =>
    match findIngredient s d.ingredient_id with
    | none => .error (.notFound "Ingredient" d.ingredient_id)
    | some _ =>
      match buildLines s rid rest (nid + 1) with
      | .error e => .error e
      | .ok ls =>
        .ok ({ id := nid, recipe_id := rid, ingredient_id := d.ingredient_id,
               quantity := d.quantity, measurement := d.measurement } :: ls)

/-- The allergen step shared by `create_recipe` (lines 208-211) and
`update_recipe` (lines 288-293): when `allergen_ids` is truthy (non-empty) the
existing allergen rows with those ids are selected — ids with no row are
silently dropped by the `IN` query; an empty submission yields the empty
list. -/
def selectSubmittedAllergens (s : Store) (ids : List Int) : List Allergen :=
  if !ids.isEmpty then selectAllergensIn s ids else []

/-- Endpoint `PUT /recipes/{id}` (`update_recipe`, `app/api/recipes.py` lines 251-312).
Fetch the recipe (404 if absent), check authorship (403 for a non-author),
overwrite the scalar fields, resolve the cuisine, replace the allergen set from
the submitted ids, clear the old line items and rebuild them from the payload
in order.  An error raised anywhere before `session.commit()` leaves the store
untouched (rollback); on success the new store is returned. -/
def update_recipe (s : Store) (id : Int) (u : RecipeUpdate) (userId : Int) :
    Except ApiError Store :=
  match findRecipe s id with
  | none => .error (.notFound "Recipe" id)
  | some recipe =>
    if recipe.author_id != userId then
      .error (.forbidden "You can only update your own recipes")
    else
      match resolveCuisine s u.cuisine_id with
      | .error e => .error e
      | .ok cuisine =>
        let newAllergens := selectSubmittedAllergens s u.allergen_ids
        match buildLines s id u.recipe_ingredients (nextLineId s) with
        | .error e => .error e
        | .ok newLines =>
          let recipe' : Recipe :=
            { recipe with
              title := u.title, description := u.description,
              cooking_time := u.cooking_time, difficulty := u.difficulty,
              cuisine_id := cuisine.map (fun c => c.id) }
          .ok { s with
                recipes := s.recipes.map (fun r => if r.id == id then recipe' else r),
                recipe_allergens :=
                  s.recipe_allergens.filter (fun p => p.1 != id)
                    ++ newAllergens.map (fun a => (id, a.id)),
                recipe_ingredients :=
                  s.recipe_ingredients.filter (fun ri => ri.recipe_id != id)
                    ++ newLines }

/-- Endpoint `POST /recipes` (`create_recipe`, `app/api/recipes.py` lines 202-249).
Select the submitted allergens (missing ids silently dropped), resolve the
cuisine (404 on a missing id), build the recipe row, then resolve each
ingredient line in order (404 on the first missing id).  Returns the new store
and the created recipe's id. -/
def create_recipe (s : Store) (c : RecipeCreate) (userId : Int) :
    Except ApiError (Store × Int) :=
  let newAllergens := selectSubmittedAllergens s c.allergen_ids
  match resolveCuisine s c.cuisine_id with
  | .error e => .error e
  | .ok cuisine =>
    let rid := nextRecipeId s
    match buildLines s rid c.recipe_ingredients (nextLineId s) with
    | .error e => .error e
    | .ok newLines =>
      let recipe : Recipe :=
        { id := rid, title := c.title, description := c.description,
          cooking_time := c.cooking_time, difficulty := c.difficulty,
          cuisine_id := cuisine.map (fun cu => cu.id), author_id := userId }
      .ok ({ s with
             recipes := s.recipes ++ [recipe],
             recipe_allergens :=
               s.recipe_allergens ++ newAllergens.map (fun a => (rid, a.id)),
             recipe_ingredients := s.recipe_ingredients ++ newLines },
           rid)

/-- Endpoint `DELETE /recipes/{id}` (`delete_recipe`, `app/api/recipes.py` lines
314-334).  404 if absent, 403 for a non-author, otherwise the recipe is
deleted together with its line items (`cascade="all, delete-orphan"`) and its
allergen association rows. -/
def delete_recipe (s : Store) (id : Int) (userId : Int) : Except ApiError Store :=
  match findRecipe s id with
  | none => .error (.notFound "Recipe" id)
  | some recipe =>
    if recipe.author_id != userId then
      .error (.forbidden "You can only delete your own recipes")
    else
      .ok { s with
            recipes := s.recipes.filter (fun r => r.id != id),
            recipe_allergens := s.recipe_allergens.filter (fun p => p.1 != id),
            recipe_ingredients := s.recipe_ingredients.filter (fun ri => ri.recipe_id != id) }

/-- Endpoint `PUT /ingredients/{id}` (`update`, `app/api/ingredients.py` lines 125-156).
404 if the ingredient is absent; then the conflict pre-check
`select(Ingredient).where(Ingredient.name == new, Ingredient.id != id)` — a
hit raises the 400 duplicate-name error; otherwise the name is overwritten. -/
def ingredient_update (s : Store) (id : Int) (newName : String) : Except ApiError Store :=
  match findIngredient s id with
  | none => .error (.notFound "Ingredient" id)
  | some _ =>
    match s.ingredients.find? (fun i => i.name == newName && i.id != id) with
    | some other => .error (.conflict "Ingredient" other.name)
    | none =>
      .ok { s with
            ingredients :=
              s.ingredients.map (fun i => if i.id == id then { i with name := newName } else i) }

/-- Python whitespace (the characters `str.strip()` removes by default). -/
def isSpaceChar (c : Char) : Bool :=
  c = ' ' || c = '\t' || c = '\n' || c = '\r' || c = '\x0b' || c = '\x0c'

/-- Python `s.strip()`: leading and trailing whitespace removed. -/
def pyStrip (s : String) : String :=
  String.mk (((s.toList.dropWhile isSpaceChar).reverse.dropWhile isSpaceChar).reverse)

/-- Python `s.split(",")` on character lists: commas separate segments, and an
empty string yields one empty segment. -/
def splitCommaChars : List Char → List (List Char)
  | [] => [[]]
  | c :: rest =>
    let r := splitCommaChars rest
    if c = ',' then [] :: r
    else (c :: r.headD []) :: r.tail

/-- Python `s.split(",")`. -/
def pySplitComma (s : String) : List String :=
  (splitCommaChars s.toList).map (fun cs => String.mk cs)

/-- Python `int()` applied to an already-stripped token: an optional sign
followed by a non-empty run of ASCII decimal digits (the embedding covers the
ASCII decimal strings the endpoint can meet; exotic forms such as underscore
separators or non-ASCII digits are out of scope).  `none` models the
`ValueError` that `int()` raises on a malformed token. -/
def pyIntParse? (s : String) : Option Int :=
  let cs := s.toList
  let signed : Int × List Char :=
    match cs with
    | '-' :: r => (-1, r)
    | '+' :: r => (1, r)
    | r => (1, r)
  if signed.2.isEmpty || !signed.2.all Char.isDigit then none
  else some (signed.1 * (signed.2.foldl (fun n c => 10 * n + (c.toNat - '0'.toNat)) 0 : Int))

/-- The list comprehension of `RecipeFilterIngredients.filter`
(`app/api/recipes.py` line 146):
`[int(x.strip()) for x in raw.split(",") if x.strip()]` — tokens that strip to
the empty string are filtered out before `int()` runs; the first remaining
malformed token makes `int()` raise a `ValueError` that escapes the handler. -/
def parseIdTokens : List String → Except ApiError (List Int)
  | [] => .ok []
  | t :: ts =>
    let st := pyStrip t
    if st == "" then parseIdTokens ts
    else
      match pyIntParse? st with
      | none => .error (.exception ("ValueError: invalid literal for int: " ++ st))
      | some n =>
        match parseIdTokens ts with
        | .error e => .error e
        | .ok ns => .ok (n :: ns)

/-- Parsing the raw `ingredient_id` filter string: split on commas, then the
comprehension above. -/
def parseIngredientIds (raw : String) : Except ApiError (List Int) :=
  parseIdTokens (pySplitComma raw)

/-- Substring test on character lists (`needle` occurs inside `hay`). -/
def containsChars (needle : List Char) : List Char → Bool
  | [] => needle.isEmpty
  | c :: rest => needle.isPrefixOf (c :: rest) || containsChars needle rest

/-- The case-insensitive "contains" predicate the filter library applies for
the search field (`ilike '%value%'`). -/
def titleMatches (needle : String) (title : String) : Bool :=
  containsChars needle.toLower.toList title.toLower.toList

/-- One ordering key of a composed statement: the attribute name picked by
`getattr(Recipe, field)` and its direction (`desc(...)` when the submitted
field started with `-`, else `asc(...)`). -/
structure OrderKey where
  attr : String
  descending : Bool
  deriving Repr, DecidableEq

/-- The accumulating `select(Recipe)` statement of the list endpoint: the
optional title "contains" predicate, the optional ingredient-membership join
filter, and the ordering keys.  (The eager-load options are modelled
separately, see `RecipeRel` below — they do not change which primary rows the
statement returns.) -/
structure RecipeQuery where
  titleLike : Option String
  ingredientIds : Option (List Int)
  orderBy : List OrderKey
  deriving Repr, DecidableEq

/-- The blank statement `select(Recipe)`. -/
def baseRecipeQuery : RecipeQuery :=
  { titleLike := none, ingredientIds := none, orderBy := [] }

/-- The attributes of the mapped `Recipe` class, as `hasattr(Recipe, name)`
sees them: the mapped columns and the relationship attributes declared in
`app/models/recipe.py`. -/
def recipeAttrNames : List String :=
  ["id", "title", "description", "cooking_time", "difficulty", "cuisine_id",
   "cuisine", "allergens", "recipe_ingredients"]

/-- The scalar attributes of `Recipe` — the allowlist the spec describes for
sorting and field selection (it coincides with `ALLOWED_FIELDS` of
`app/api/ingredients.py` line 227). -/
def RECIPE_SCALAR_FIELDS : List String :=
  ["id", "title", "difficulty", "description", "cooking_time"]

/-- Python `field.startswith('-')`. -/
def startsWithDash (f : String) : Bool :=
  match f.toList with
  | '-' :: _ => true
  | _ => false

/-- Python `field[1:]`. -/
def dropFirst (f : String) : String :=
  String.mk (f.toList.drop 1)

/-- An ordering value with every `-` and `+` character removed — the field
name the filter library validates (its `validate_order_by` does
`field_name.replace("-", "").replace("+", "")`). -/
def stripDirection (f : String) : String :=
  String.mk (f.toList.filter (fun c => c ≠ '-' && c ≠ '+'))

/-- Modelled from the spec: the ordering validation of the external
`fastapi-filter` dependency (not part of `src/`), which runs when
`FilterDepends(RecipeFilterStandard)` builds the filter.  Each ordering value,
stripped of direction characters, must be an attribute of the `Constants.model`
(checked with `hasattr`); the first failure raises a validation error naming
that field, and after all names pass, a duplicated name is rejected.  The spec
summarizes this as "sort fields not in the allowlist fail with a validation
error naming the offending field". -/
def validate_order_by (attrs : List String) (value : Option (List String)) :
    Except ApiError (Option (List String)) :=
  match value with
  | none => .ok none
  | some fields =>
    match fields.find? (fun f => !attrs.contains (stripDirection f)) with
    | some bad => .error (.validation (stripDirection bad) "is not a valid ordering field")
    | none =>
      if (fields.map stripDirection).Nodup then .ok (some fields)
      else .error (.validation "order_by" "field names can appear at most once")

/-- The `RecipeFilterStandard` filter of the list endpoint
(`app/api/recipes.py` lines 115-136): the search field `title__like` and the
ordering field `order_by`. -/
structure RecipeFilterStandard where
  title__like : Option String
  order_by : Option (List String)
  deriving Repr, DecidableEq

/-- Models `filter_standard.filter(stmt)`: the library base filter applies the search
predicate on `title` when `title__like` is truthy and otherwise leaves the
statement alone. -/
def RecipeFilterStandard.filterStep (f : RecipeFilterStandard) (q : RecipeQuery) : RecipeQuery :=
  if pyTruthyOptStr f.title__like then { q with titleLike := f.title__like } else q

/-- Method `RecipeFilterStandard.sort` (`app/api/recipes.py` lines 125-136): when
`order_by` is falsy the statement is returned unchanged — no default ordering
is added; otherwise each field is turned into `desc(getattr(Recipe, f[1:]))`
when it starts with `-`, else `asc(getattr(Recipe, f))`.  A field that is not
an attribute of `Recipe` makes `getattr` raise an `AttributeError`. -/
def RecipeFilterStandard.sort (f : RecipeFilterStandard) (q : RecipeQuery) :
    Except ApiError RecipeQuery :=
  if !pyTruthyOptList f.order_by then .ok q
  else
    match sortFields (f.order_by.getD []) with
    | .error e => .error e
    | .ok keys => .ok { q with orderBy := keys }
where
  sortFields : List String → Except ApiError (List OrderKey)
    | [] => .ok []
    | fld :: rest =>
      let attr := if startsWithDash fld then dropFirst fld else fld
      if !recipeAttrNames.contains attr then
        .error (.exception ("AttributeError: type object Recipe has no attribute " ++ attr))
      else
        match sortFields rest with
        | .error e => .error e
        | .ok keys => .ok ({ attr := attr, descending := startsWithDash fld } :: keys)

/-- The `RecipeFilterIngredients` filter of the list endpoint
(`app/api/recipes.py` lines 138-150): when the raw string is truthy it is
parsed and the statement gains the `join(Recipe.recipe_ingredients)` plus
`RecipeIngredient.ingredient_id.in_(ids)` filter. -/
structure RecipeFilterIngredients where
  ingredient_id : Option String
  deriving Repr, DecidableEq

def RecipeFilterIngredients.filterStep (f : RecipeFilterIngredients) (q : RecipeQuery) :
    Except ApiError RecipeQuery :=
  if pyTruthyOptStr f.ingredient_id then
    match parseIngredientIds (f.ingredient_id.getD "") with
    | .error e => .error e
    | .ok ids => .ok { q with ingredientIds := some ids }
  else
    .ok q

/-- Comparison of two recipes on one scalar attribute (used to interpret an
`ORDER BY` key).  A key naming a non-scalar attribute has no row-ordering
semantics in SQL; it is interpreted as "equal" here, which no claim relies
on. -/
def attrLe (attr : String) (a b : Recipe) : Bool :=
  if attr == "id" then a.id ≤ b.id
  else if attr == "title" then decide (a.title ≤ b.title)
  else if attr == "description" then decide (a.description ≤ b.description)
  else if attr == "cooking_time" then a.cooking_time ≤ b.cooking_time
  else if attr == "difficulty" then a.difficulty ≤ b.difficulty
  else if attr == "cuisine_id" then a.cuisine_id.getD 0 ≤ b.cuisine_id.getD 0
  else true

/-- Lexicographic `ORDER BY key1, key2, …`: the first key that distinguishes
the rows decides, with its own direction. -/
def keysLe : List OrderKey → Recipe → Recipe → Bool
  | [], _, _ => true
  | k :: ks, a, b =>
    let le := if k.descending then attrLe k.attr b a else attrLe k.attr a b
    let ge := if k.descending then attrLe k.attr a b else attrLe k.attr b a
    if le && ge then keysLe ks a b else le

/-- Executing a composed `select(Recipe)` statement against the store: rows in
table order, the title predicate applied, the ingredient join (which emits the
recipe once **per matching line item** — the join fan-out), and finally the
`ORDER BY` keys (no keys ⇒ the rows keep table order; SQL promises nothing
more). -/
def runRecipeQuery (s : Store) (q : RecipeQuery) : List Recipe :=
  let base :=
    match q.titleLike with
    | none => s.recipes
    | some needle => s.recipes.filter (fun r => titleMatches needle r.title)
  let joined :=
    match q.ingredientIds with
    | none => base
    | some ids =>
      base.flatMap (fun r =>
        (s.recipe_ingredients.filter
            (fun ri => ri.recipe_id == r.id && ids.contains ri.ingredient_id)).map
          (fun _ => r))
  match q.orderBy with
  | [] => joined
  | keys => joined.insertionSort (fun a b => keysLe keys a b)

/-- The statement-composition pipeline of `GET /recipes` (`get_recipes`,
`app/api/recipes.py` lines 166-187): the ordering values are validated when
the filter object is built, then `filter_standard.filter`,
`filter_standard.sort` and `filter_ingredients.filter` compose the statement,
which is executed (pagination then slices this row list; the rows themselves
are what the claims below speak about). -/
def get_recipes (s : Store) (fs : RecipeFilterStandard) (fi : RecipeFilterIngredients) :
    Except ApiError (List Recipe) :=
  match validate_order_by recipeAttrNames fs.order_by with
  | .error e => .error e
  | .ok _ =>
    let q := fs.filterStep baseRecipeQuery
    match fs.sort q with
    | .error e => .error e
    | .ok q =>
      match fi.filterStep q with
      | .error e => .error e
      | .ok q => .ok (runRecipeQuery s q)

/-- The relationships of `Recipe` that eager-load options can target. -/
inductive RecipeRel where
  | cuisine
  | allergens
  | recipe_ingredients
  | author
  deriving Repr, DecidableEq

/-- Whether a relationship is to-many (a collection on the recipe side). -/
def RecipeRel.isToMany : RecipeRel → Bool
  | .allergens => true
  | .recipe_ingredients => true
  | _ => false

/-- The two eager-load strategies the code uses: `joinedload` (join into the
primary statement) and `selectinload` (separate secondary query keyed by the
already-selected parent ids). -/
inductive LoadStrategy where
  | joined
  | selectin
  deriving Repr, DecidableEq

/-- The `.options(...)` of the list statement in `get_recipes`
(`app/api/recipes.py` lines 172-180), in source order. -/
def get_recipes_options : List (RecipeRel × LoadStrategy) :=
  [(.cuisine, .joined), (.allergens, .selectin),
   (.recipe_ingredients, .selectin), (.author, .joined)]

/-- The `.options(...)` of the detail statement in `get_recipe_with_relations`
(`app/api/recipes.py` lines 152-162), in source order. -/
def get_recipe_with_relations_options : List (RecipeRel × LoadStrategy) :=
  [(.cuisine, .joined), (.allergens, .selectin),
   (.recipe_ingredients, .selectin), (.author, .joined)]

/-- The include-dependent `.options(...)` of the sub-listing statement in
`get_recipes_by_ingredient` (`app/api/ingredients.py` lines 213-224), in
source order: `joinedload(Recipe.cuisine)` when `"cuisine"` is included,
`selectinload(Recipe.recipe_ingredients).joinedload(RecipeIngredient.ingredient)`
when `"ingredients"` is, `selectinload(Recipe.allergens)` when `"allergens"`
is.  (The nested `joinedload` joins the to-one `ingredient` of each line item
into the secondary query, not into the primary statement.) -/
def get_recipes_by_ingredient_options (include_list : List String) :
    List (RecipeRel × LoadStrategy) :=
  (if include_list.contains "cuisine" then [((.cuisine : RecipeRel), LoadStrategy.joined)] else [])
    ++ (if include_list.contains "ingredients" then
          [((.recipe_ingredients : RecipeRel), LoadStrategy.selectin)] else [])
    ++ (if include_list.contains "allergens" then
          [((.allergens : RecipeRel), LoadStrategy.selectin)] else [])

/-- The parent keys a `selectinload` secondary query is parameterized by: the
ids of the rows the primary statement already selected. -/
def selectinKeys (parents : List Recipe) : List Int :=
  parents.map (fun r => r.id)

/-- Models `select(Allergen).where(Allergen.id == id)` on the primary key. -/
def findAllergen (s : Store) (id : Int) : Option Allergen :=
  s.allergens.find? (fun a => a.id == id)

/-- The secondary query `selectinload(Recipe.allergens)` issues: the
association rows whose `recipe_id` is among the parent keys, joined to the
allergen rows. -/
def allergenSecondaryQuery (s : Store) (keys : List Int) : List (Int × Allergen) :=
  (s.recipe_allergens.filter (fun p => keys.contains p.1)).filterMap
    (fun p => (findAllergen s p.2).map (fun a => (p.1, a)))

/-- The secondary query `selectinload(Recipe.recipe_ingredients)` issues: the
line-item rows whose `recipe_id` is among the parent keys, each joined
(`joinedload(RecipeIngredient.ingredient)`) to its to-one ingredient row. -/
def lineSecondaryQuery (s : Store) (keys : List Int) :
    List (RecipeIngredient × Option Ingredient) :=
  (s.recipe_ingredients.filter (fun ri => keys.contains ri.recipe_id)).map
    (fun ri => (ri, findIngredient s ri.ingredient_id))

/-- A recipe row with its eagerly materialized relations, as the ORM hands it
to response shaping. -/
structure LoadedRecipe where
  recipe : Recipe
  cuisine : Option Cuisine
  allergens : List Allergen
  recipe_ingredients : List (RecipeIngredient × Option Ingredient)
  deriving Repr, DecidableEq

/-- Attaching the secondary-query results to the primary rows: each parent of
the primary result yields exactly one loaded record; its collections are the
secondary rows keyed by that parent's id. -/
def attachRelations (s : Store) (parents : List Recipe) : List LoadedRecipe :=
  let keys := selectinKeys parents
  let allergenRows := allergenSecondaryQuery s keys
  let lineRows := lineSecondaryQuery s keys
  parents.map (fun r =>
    { recipe := r,
      cuisine := r.cuisine_id.bind (fun cid => findCuisine s cid),
      allergens := (allergenRows.filter (fun p => p.1 == r.id)).map (fun p => p.2),
      recipe_ingredients := lineRows.filter (fun p => p.1.recipe_id == r.id) })

/-- Function `get_recipe_with_relations` (`app/api/recipes.py` lines 152-164): the
detail statement for one id, fully eager-loaded. -/
def get_recipe_with_relations (s : Store) (id : Int) : Option LoadedRecipe :=
  (findRecipe s id).map (fun r => (attachRelations s [r]).headD
    { recipe := r, cuisine := none, allergens := [], recipe_ingredients := [] })

/-- The filtering statement of the sub-listing endpoint
(`app/api/ingredients.py` lines 193-198):
`select(Recipe).join(Recipe.recipe_ingredients)
 .where(RecipeIngredient.ingredient_id == id).order_by(Recipe.id)`.
The join emits one row per matching line item (fan-out), then the rows are
ordered by recipe id. -/
def subListRows (s : Store) (ingId : Int) : List Recipe :=
  (s.recipes.flatMap (fun r =>
      (s.recipe_ingredients.filter
          (fun ri => ri.recipe_id == r.id && ri.ingredient_id == ingId)).map
        (fun _ => r))).insertionSort (fun a b => a.id ≤ b.id)

/-- Models `results.unique()` (`app/api/ingredients.py` line 242): SQLAlchemy
deduplicates the scalar rows by identity (primary key), keeping the first
occurrence of each id. -/
def dedupByIdAux (seen : List Int) : List Recipe → List Recipe
  | [] => []
  | r :: rs =>
    if seen.contains r.id then dedupByIdAux seen rs
    else r :: dedupByIdAux (r.id :: seen) rs

def uniqueRows (l : List Recipe) : List Recipe :=
  dedupByIdAux [] l

/-- The recipe rows the sub-listing endpoint shapes: the join result,
deduplicated. -/
def subListRecipes (s : Store) (ingId : Int) : List Recipe :=
  uniqueRows (subListRows s ingId)

/-- The relation names the sub-listing endpoint accepts in `include`
(`app/api/ingredients.py` line 207). -/
def ALLOWED_INCLUDES : List String :=
  ["cuisine", "ingredients", "allergens"]

/-- One shaped record of the sub-listing response: a dictionary whose keys are
present (`some`) or absent (`none`).  Scalar keys carry the recipe's column
values; `cuisine`, `allergens` and `recipe_ingredients` carry the related data
the handler serializes (id/name for cuisine and allergens; id, ingredient,
quantity, measurement for line items). -/
structure ShapedRecipe where
  id : Option Int
  title : Option String
  description : Option String
  cooking_time : Option Int
  difficulty : Option Int
  cuisine : Option Cuisine
  allergens : Option (List Allergen)
  recipe_ingredients : Option (List (RecipeIngredient × Option Ingredient))
  deriving Repr, DecidableEq

/-- The per-recipe dictionary construction of `get_recipes_by_ingredient`
(`app/api/ingredients.py` lines 248-344).  When `select` was given
(`useSelect`), a scalar key is written iff it is among the requested fields;
otherwise all five scalar keys are written.  In every branch a relation key is
written iff its name is in `include_list` **and** the loaded relation is
truthy — a `None` cuisine or an empty collection writes no key at all. -/
def shapeRecipe (include_list : List String) (requested : List String)
    (useSelect : Bool) (lr : LoadedRecipe) : ShapedRecipe :=
  { id := if !useSelect || requested.contains "id" then some lr.recipe.id else none,
    title := if !useSelect || requested.contains "title" then some lr.recipe.title else none,
    description :=
      if !useSelect || requested.contains "description" then some lr.recipe.description else none,
    cooking_time :=
      if !useSelect || requested.contains "cooking_time" then some lr.recipe.cooking_time else none,
    difficulty :=
      if !useSelect || requested.contains "difficulty" then some lr.recipe.difficulty else none,
    cuisine :=
      if include_list.contains "cuisine" && lr.cuisine.isSome then lr.cuisine else none,
    allergens :=
      if include_list.contains "allergens" && !lr.allergens.isEmpty
      then some lr.allergens else none,
    recipe_ingredients :=
      if include_list.contains "ingredients" && !lr.recipe_ingredients.isEmpty
      then some lr.recipe_ingredients else none }

/-- Endpoint `GET /ingredients/{id}/recipes` (`get_recipes_by_ingredient`,
`app/api/ingredients.py` lines 178-344).  404 when the ingredient is absent;
the `include` parameter, when truthy, is split on commas and each stripped
item must be an allowed relation name (400 naming the first invalid one); the
`select` parameter, when truthy, is split into the requested field set, which
must be a subset of `ALLOWED_FIELDS` (400 listing the invalid names); the
filtering statement runs, its rows are deduplicated, and each remaining row is
shaped.  (The handler only reads the relations named in `include_list`, which
are exactly the eagerly loaded ones, so attaching all relations here is
observationally faithful.) -/
def get_recipes_by_ingredient (s : Store) (id : Int)
    (includeParam : Option String) (select_var : Option String) :
    Except ApiError (List ShapedRecipe) :=
  match findIngredient s id with
  | none => .error (.notFound "Ingredient" id)
  | some _ =>
    let include_list :=
      if pyTruthyOptStr includeParam
      then (pySplitComma (includeParam.getD "")).map pyStrip
      else []
    match include_list.find? (fun item => !ALLOWED_INCLUDES.contains item) with
    | some bad => .error (.invalidInclude bad)
    | none =>
      let useSelect := pyTruthyOptStr select_var
      let requested :=
        if useSelect
        then (pySplitComma (select_var.getD "")).map pyStrip
        else RECIPE_SCALAR_FIELDS
      let invalid := (requested.filter (fun f => !RECIPE_SCALAR_FIELDS.contains f)).dedup
      if useSelect && !invalid.isEmpty then .error (.invalidFields invalid)
      else
        let rows := subListRecipes s id
        if rows.isEmpty then .ok []
        else .ok ((attachRelations s rows).map (shapeRecipe include_list requested useSelect))

/-! ### Concrete fixtures used by witnesses and counterexamples -/

def exRecipe1 : Recipe :=
  { id := 1, title := "Borscht", description := "Beet soup", cooking_time := 90,
    difficulty := 3, cuisine_id := some 1, author_id := 1 }

def exRecipe2 : Recipe :=
  { id := 2, title := "Olivier", description := "Salad", cooking_time := 40,
    difficulty := 2, cuisine_id := none, author_id := 2 }

def exLine1 : RecipeIngredient :=
  { id := 1, recipe_id := 1, ingredient_id := 1, quantity := 2, measurement := 1 }

def exLine2 : RecipeIngredient :=
  { id := 2, recipe_id := 1, ingredient_id := 2, quantity := 3, measurement := 2 }

def exLine3 : RecipeIngredient :=
  { id := 3, recipe_id := 2, ingredient_id := 2, quantity := 5, measurement := 2 }

def exLine4 : RecipeIngredient :=
  { id := 4, recipe_id := 1, ingredient_id := 2, quantity := 1, measurement := 3 }

/-- A small store: two recipes by different authors, two ingredients, one
cuisine, one allergen; recipe 1 has two line items for ingredient 2 (so the
sub-listing join fans out). -/
def exStore : Store :=
  { recipes := [exRecipe1, exRecipe2],
    ingredients := [{ id := 1, name := "Beet" }, { id := 2, name := "Potato" }],
    cuisines := [{ id := 1, name := "Ukrainian" }],
    allergens := [{ id := 1, name := "Celery" }],
    recipe_ingredients := [exLine1, exLine2, exLine3, exLine4],
    recipe_allergens := [(1, 1)] }

/-- An update payload whose only allergen reference, id 999, has no row. -/
def exUpdateMissingAllergen : RecipeUpdate :=
  { title := "Borscht", description := "Beet soup", cooking_time := 90, difficulty := 3,
    cuisine_id := none, allergen_ids := [999], recipe_ingredients := [] }

/-- A store whose table rows are not in ascending-id order. -/
def outOfOrderStore : Store :=
  { recipes := [exRecipe2, exRecipe1],
    ingredients := [], cuisines := [], allergens := [],
    recipe_ingredients := [], recipe_allergens := [] }

/-! ### C8 — non-author update/delete -/

/-- C8: for every update or delete of an existing recipe by a user who is not
its author, the operation fails with the 403 authorization error — an
`ApiError.forbidden`, which is distinct from every `ApiError.notFound` — and
the store is unchanged afterward (the rolled-back transaction commits
nothing). -/
theorem C8_nonauthor_rejected (s : Store) (id userId : Int) (r : Recipe) (u : RecipeUpdate)
    (hfind : findRecipe s id = some r) (hneq : r.author_id ≠ userId) :
    update_recipe s id u userId = .error (.forbidden "You can only update your own recipes") ∧
    delete_recipe s id userId = .error (.forbidden "You can only delete your own recipes") ∧
    (∀ d e i, ApiError.forbidden d ≠ ApiError.notFound e i) ∧
    commitState s (update_recipe s id u userId) = s ∧
    commitState s (delete_recipe s id userId) = s := by
  have hb : (r.author_id != userId) = true := by simpa [bne_iff_ne] using hneq
  have h1 : update_recipe s id u userId
      = .error (.forbidden "You can only update your own recipes") := by
    unfold update_recipe
    rw [hfind]
    simp only [hb, if_true]
  have h2 : delete_recipe s id userId
      = .error (.forbidden "You can only delete your own recipes") := by
    unfold delete_recipe
    rw [hfind]
    simp only [hb, if_true]
  refine ⟨h1, h2, ?_, ?_, ?_⟩
  · intro d e i h
    exact ApiError.noConfusion h
  · rw [h1]; rfl
  · rw [h2]; rfl

/-- Witness for C8: in `exStore`, recipe 1 belongs to author 1; user 2 gets
the 403 on both update and delete and the store is untouched. -/
theorem C8_witness :
    update_recipe exStore 1 exUpdateMissingAllergen 2
        = .error (.forbidden "You can only update your own recipes") ∧
    delete_recipe exStore 1 2
        = .error (.forbidden "You can only delete your own recipes") ∧
    (∀ d e i, ApiError.forbidden d ≠ ApiError.notFound e i) ∧
    commitState exStore (update_recipe exStore 1 exUpdateMissingAllergen 2) = exStore ∧
    commitState exStore (delete_recipe exStore 1 2) = exStore :=
  C8_nonauthor_rejected exStore 1 2 exRecipe1 exUpdateMissingAllergen (by decide) (by decide)

/-! ### C9 — ingredient rename conflict -/

/-- C9: renaming an existing ingredient raises the duplicate-name conflict
error exactly when a *different* ingredient row (another id) carries the
requested name; under the store's name-uniqueness invariant, renaming an
ingredient to its own current name therefore succeeds. -/
theorem C9_rename_conflict (s : Store) (id : Int) (newName : String) (ing : Ingredient)
    (hfind : findIngredient s id = some ing) :
    (ingredient_update s id newName = .error (.conflict "Ingredient" newName) ↔
      ∃ other ∈ s.ingredients, other.name = newName ∧ other.id ≠ id) ∧
    ((∀ other ∈ s.ingredients, other.name = ing.name → other.id = id) →
      (ingredient_update s id ing.name).isOk = true) := by
  constructor
  · unfold ingredient_update
    rw [hfind]
    cases hf : s.ingredients.find? (fun i => i.name == newName && i.id != id) with
    | none =>
      simp only []
      constructor
      · intro h
        exact absurd h (by simp)
      · rintro ⟨other, hmem, hname, hid⟩
        have hnp := List.find?_eq_none.mp hf other hmem
        simp [hname, hid] at hnp
    | some other =>
      have hp := List.find?_some hf
      have hmem := List.mem_of_find?_eq_some hf
      simp only [Bool.and_eq_true, beq_iff_eq, bne_iff_ne] at hp
      simp only [hp.1]
      constructor
      · intro _
        exact ⟨other, hmem, hp.1, hp.2⟩
      · intro _
        trivial
  · intro huniq
    have hf : s.ingredients.find? (fun i => i.name == ing.name && i.id != id) = none := by
      apply List.find?_eq_none.mpr
      intro a ha
      by_cases hn : a.name = ing.name
      · have := huniq a ha hn
        simp [hn, this]
      · simp [hn]
    unfold ingredient_update
    rw [hfind, hf]
    rfl

/-- Witness for C9: in `exStore`, ingredient 1 is named "Beet"; renaming it to
"Potato" conflicts with ingredient 2, and renaming it to "Beet" succeeds. -/
theorem C9_witness :
    (ingredient_update exStore 1 "Potato" = .error (.conflict "Ingredient" "Potato") ↔
      ∃ other ∈ exStore.ingredients, other.name = "Potato" ∧ other.id ≠ 1) ∧
    (ingredient_update exStore 1 "Beet").isOk = true := by
  have h := C9_rename_conflict exStore 1 "Potato" { id := 1, name := "Beet" } (by decide)
  have h2 := C9_rename_conflict exStore 1 "Beet" { id := 1, name := "Beet" } (by decide)
  exact ⟨h.1, h2.2 (by decide)⟩

/-! ### C1 — to-many relations are loaded by secondary queries, never joins -/

/-- C1: in every recipe list or detail statement (the filtered list, the
detail fetch, and the include-driven sub-listing), each eager-load option
targeting a to-many relation (allergens; ingredients via line items) uses the
`selectinload` strategy — a separate secondary query keyed by the
already-selected parent ids — never `joinedload`; and attaching the secondary
results maps each primary row to exactly one loaded record, so eager loading
never changes the cardinality of the recipe list. -/
theorem C1_to_many_selectin :
    (∀ p ∈ get_recipes_options, p.1.isToMany = true → p.2 = LoadStrategy.selectin) ∧
    (∀ p ∈ get_recipe_with_relations_options, p.1.isToMany = true → p.2 = LoadStrategy.selectin) ∧
    (∀ include_list : List String, ∀ p ∈ get_recipes_by_ingredient_options include_list,
      p.1.isToMany = true → p.2 = LoadStrategy.selectin) ∧
    (∀ (s : Store) (parents : List Recipe),
      (attachRelations s parents).map (fun lr => lr.recipe) = parents ∧
      selectinKeys parents = parents.map (fun r => r.id)) := by
  refine ⟨by decide, by decide, ?_, ?_⟩
  · intro include_list p hp htm
    unfold get_recipes_by_ingredient_options at hp
    have hsingle : ∀ (c : Bool) (x : RecipeRel × LoadStrategy),
        p ∈ (if c = true then [x] else []) → p = x := by
      intro c x hmem
      cases c <;> simp_all
    rcases List.mem_append.mp hp with hp | hpC
    · rcases List.mem_append.mp hp with hpA | hpB
      · have := hsingle _ _ hpA
        subst this
        simp [RecipeRel.isToMany] at htm
      · have := hsingle _ _ hpB
        subst this
        rfl
    · have := hsingle _ _ hpC
      subst this
      rfl
  · intro s parents
    constructor
    · unfold attachRelations
      rw [List.map_map]
      exact List.map_id parents
    · rfl

/-- Witness for C1: the allergens option of the list statement is a
`selectinload`, and attaching secondary results to `exStore`'s two recipes
yields exactly those two recipes. -/
theorem C1_witness :
    ((RecipeRel.allergens, LoadStrategy.selectin) ∈ get_recipes_options ∧
      RecipeRel.allergens.isToMany = true) ∧
    (RecipeRel.allergens, LoadStrategy.selectin).2 = LoadStrategy.selectin ∧
    (attachRelations exStore exStore.recipes).map (fun lr => lr.recipe) = exStore.recipes :=
  ⟨⟨by decide, by decide⟩,
   C1_to_many_selectin.1 (RecipeRel.allergens, LoadStrategy.selectin) (by decide) (by decide),
   (C1_to_many_selectin.2.2.2 exStore exStore.recipes).1⟩

/-! ### C7 — relation data appears iff requested and populated -/

/-- C7: in the sub-listing endpoint's shaped output, a relation key is present
in a record exactly when that relation was requested through `include` *and*
the loaded relation is populated (a present cuisine; a non-empty collection);
an empty collection writes no key rather than an empty list.  The last
conjunct ties this to the endpoint: every successful response is the
per-record shaping of the deduplicated, relation-attached query rows. -/
theorem C7_relation_presence (include_list requested : List String) (useSelect : Bool)
    (lr : LoadedRecipe) :
    ((shapeRecipe include_list requested useSelect lr).cuisine.isSome = true ↔
      include_list.contains "cuisine" = true ∧ lr.cuisine.isSome = true) ∧
    ((shapeRecipe include_list requested useSelect lr).allergens.isSome = true ↔
      include_list.contains "allergens" = true ∧ lr.allergens ≠ []) ∧
    ((shapeRecipe include_list requested useSelect lr).recipe_ingredients.isSome = true ↔
      include_list.contains "ingredients" = true ∧ lr.recipe_ingredients ≠ []) ∧
    (∀ (s : Store) (id : Int) (incp selp : Option String) (out : List ShapedRecipe),
      get_recipes_by_ingredient s id incp selp = .ok out →
      out = (attachRelations s (subListRecipes s id)).map
        (shapeRecipe
          (if pyTruthyOptStr incp
           then ((pySplitComma (incp.getD "")).map pyStrip) else [])
          (if pyTruthyOptStr selp
           then ((pySplitComma (selp.getD "")).map pyStrip) else RECIPE_SCALAR_FIELDS)
          (pyTruthyOptStr selp))) := by
  refine ⟨?_, ?_, ?_, ?_⟩
  · unfold shapeRecipe
    cases hc : include_list.contains "cuisine" <;>
      cases ho : lr.cuisine <;> simp [hc, ho]
  · unfold shapeRecipe
    cases hc : include_list.contains "allergens" <;>
      cases ho : lr.allergens <;> simp [hc, ho]
  · unfold shapeRecipe
    cases hc : include_list.contains "ingredients" <;>
      cases ho : lr.recipe_ingredients <;> simp [hc, ho]
  · intro s id incp selp out h
    unfold get_recipes_by_ingredient at h
    cases hi : findIngredient s id with
    | none => rw [hi] at h; exact absurd h (by simp)
    | some ing =>
      rw [hi] at h
      simp only [] at h
      cases hv : (if pyTruthyOptStr incp
          then ((pySplitComma (incp.getD "")).map pyStrip) else []).find?
            (fun item => !ALLOWED_INCLUDES.contains item) with
      | some bad => rw [hv] at h; exact absurd h (by simp)
      | none =>
        rw [hv] at h
        simp only [] at h
        by_cases hsel : (pyTruthyOptStr selp && !((if pyTruthyOptStr selp
            then ((pySplitComma (selp.getD "")).map pyStrip)
            else RECIPE_SCALAR_FIELDS).filter
              (fun f => !RECIPE_SCALAR_FIELDS.contains f)).dedup.isEmpty) = true
        · rw [if_pos hsel] at h
          exact absurd h (by simp)
        · rw [if_neg hsel] at h
          by_cases hempty : (subListRecipes s id).isEmpty = true
          · rw [if_pos hempty] at h
            have hnil : subListRecipes s id = [] := List.isEmpty_iff.mp hempty
            injection h with h
            subst h
            rw [hnil]
            simp [attachRelations]
          · rw [if_neg hempty] at h
            injection h with h
            exact h.symm

/-- Witness for C7: with `allergens` included and a populated allergen list,
the shaped record carries the allergens key. -/
theorem C7_witness :
    (shapeRecipe ["allergens"] RECIPE_SCALAR_FIELDS false
      { recipe := exRecipe1, cuisine := none,
        allergens := [{ id := 1, name := "Celery" }],
        recipe_ingredients := [] }).allergens.isSome = true :=
  (C7_relation_presence ["allergens"] RECIPE_SCALAR_FIELDS false
    { recipe := exRecipe1, cuisine := none,
      allergens := [{ id := 1, name := "Celery" }],
      recipe_ingredients := [] }).2.1.mpr ⟨by decide, by decide⟩

/-! ### C4 — ingredient-id filter parsing -/

/-- What a successful run of the token comprehension guarantees: every token
that strips to something non-empty parsed as an integer, and the resulting ids
are exactly the parses of those tokens in order — tokens that strip to the
empty string are skipped. -/
theorem parseIdTokens_ok (ts : List String) (ids : List Int)
    (h : parseIdTokens ts = .ok ids) :
    (∀ t ∈ ts, pyStrip t ≠ "" → (pyIntParse? (pyStrip t)).isSome = true) ∧
    ids = ts.filterMap (fun t => if pyStrip t == "" then none else pyIntParse? (pyStrip t)) := by
  induction ts generalizing ids with
  | nil =>
    unfold parseIdTokens at h
    injection h with h
    subst h
    exact ⟨by intro t ht; exact absurd ht (List.not_mem_nil t), rfl⟩
  | cons t ts ih =>
    unfold parseIdTokens at h
    by_cases he : pyStrip t == ""
    · rw [if_pos he] at h
      obtain ⟨h1, h2⟩ := ih ids h
      refine ⟨?_, ?_⟩
      · intro u hu hne
        rcases List.mem_cons.mp hu with rfl | hu
        · exact absurd (by simpa using he) hne
        · exact h1 u hu hne
      · simp only [List.filterMap_cons, if_pos he]
        exact h2
    · rw [if_neg he] at h
      cases hp : pyIntParse? (pyStrip t) with
      | none => rw [hp] at h; exact absurd h (by simp)
      | some n =>
        rw [hp] at h
        cases hrest : parseIdTokens ts with
        | error e => rw [hrest] at h; exact absurd h (by simp)
        | ok ns =>
          rw [hrest] at h
          injection h with h
          subst h
          obtain ⟨h1, h2⟩ := ih ns hrest
          refine ⟨?_, ?_⟩
          · intro u hu hne
            rcases List.mem_cons.mp hu with rfl | hu
            · rw [hp]; rfl
            · exact h1 u hu hne
          · simp only [List.filterMap_cons, hp, if_neg he]
            rw [h2]

/-- Counterexample to C4 as stated: the filter string `"1,,2"` contains a
malformed (non-numeric) token — the empty token between the commas — yet
parsing succeeds and silently drops it, yielding `[1, 2]`. -/
theorem C4_counterexample :
    (pySplitComma "1,,2").any (fun t => (pyIntParse? (pyStrip t)).isNone) = true ∧
    parseIngredientIds "1,,2" = .ok [1, 2] := by
  constructor
  · rfl
  · rfl

/-- C4 amended: when parsing the ingredient-id filter string succeeds, every
comma-separated token that strips to a non-empty string was numeric and its
value appears in the id list in token order (so non-empty malformed tokens are
never dropped: they would instead abort parsing with the `ValueError` escaping
`int()`); only tokens that strip to the empty string are silently skipped. -/
theorem C4_amended_parse (raw : String) (ids : List Int)
    (h : parseIngredientIds raw = .ok ids) :
    (∀ t ∈ pySplitComma raw, pyStrip t ≠ "" → (pyIntParse? (pyStrip t)).isSome = true) ∧
    ids = (pySplitComma raw).filterMap
      (fun t => if pyStrip t == "" then none else pyIntParse? (pyStrip t)) :=
  parseIdTokens_ok (pySplitComma raw) ids h

/-- Witness for C4 amended: the filter string `"1, 2"` parses to `[1, 2]`,
all non-empty tokens numeric. -/
theorem C4_witness :
    (∀ t ∈ pySplitComma "1, 2", pyStrip t ≠ "" → (pyIntParse? (pyStrip t)).isSome = true) ∧
    [1, 2] = (pySplitComma "1, 2").filterMap
      (fun t => if pyStrip t == "" then none else pyIntParse? (pyStrip t)) :=
  C4_amended_parse "1, 2" [1, 2] (by rfl)

/-! ### C5 — sort-field validation -/

/-- When every submitted ordering field names (after direction stripping) an
attribute of `Recipe`, the `sort` step succeeds: `getattr` resolves each field
and the ordering clauses are built without any error. -/
theorem sortFields_ok (fields : List String)
    (h : ∀ f ∈ fields, recipeAttrNames.contains
      (if startsWithDash f then dropFirst f else f) = true) :
    (RecipeFilterStandard.sort.sortFields fields).isOk = true := by
  induction fields with
  | nil => rfl
  | cons fld rest ih =>
    have hf := h fld (List.mem_cons_self fld rest)
    unfold RecipeFilterStandard.sort.sortFields
    simp only [hf, Bool.not_true, if_false, Bool.false_eq_true, ite_false]
    have hrest := ih (fun f hmem => h f (List.mem_cons_of_mem fld hmem))
    cases hsf : RecipeFilterStandard.sort.sortFields rest with
    | error e =>
      rw [hsf] at hrest
      simp [Except.isOk, Except.toBool] at hrest
    | ok keys => rfl

/-- Counterexample to C5 as stated: `allergens` is not in the allowlist of
`Recipe` scalar attributes, yet a list request sorting by it passes the
ordering validation (an `hasattr` check that also admits relation attributes)
and the `sort` step happily builds an ordering clause for it — no validation
error names the field. -/
theorem C5_counterexample :
    RECIPE_SCALAR_FIELDS.contains "allergens" = false ∧
    validate_order_by recipeAttrNames (some ["allergens"]) = .ok (some ["allergens"]) ∧
    RecipeFilterStandard.sort { title__like := none, order_by := some ["allergens"] }
        baseRecipeQuery
      = .ok { baseRecipeQuery with orderBy := [{ attr := "allergens", descending := false }] } :=
  ⟨rfl, rfl, rfl⟩

/-- C5 amended: a sort field whose direction-stripped name is not an attribute
of the `Recipe` model fails with a validation error naming that field (the
first offender), raised before the query runs; but a field naming *any*
`Recipe` attribute — scalar or not — passes validation and is handed to the
ordering clause without error, so non-scalar fields like `allergens` are not
rejected. -/
theorem C5_amended_sort_validation (s : Store) (fs : RecipeFilterStandard)
    (fi : RecipeFilterIngredients) :
    (∀ fields bad, fs.order_by = some fields →
      fields.find? (fun f => !recipeAttrNames.contains (stripDirection f)) = some bad →
      get_recipes s fs fi
        = .error (.validation (stripDirection bad) "is not a valid ordering field")) ∧
    (∀ fields, fs.order_by = some fields →
      (∀ f ∈ fields, recipeAttrNames.contains (stripDirection f) = true) →
      (fields.map stripDirection).Nodup →
      validate_order_by recipeAttrNames fs.order_by = .ok (some fields)) ∧
    (∀ fields, fs.order_by = some fields → fields ≠ [] →
      (∀ f ∈ fields, recipeAttrNames.contains
        (if startsWithDash f then dropFirst f else f) = true) →
      (RecipeFilterStandard.sort fs baseRecipeQuery).isOk = true) := by
  refine ⟨?_, ?_, ?_⟩
  · intro fields bad h1 h2
    unfold get_recipes validate_order_by
    rw [h1]
    simp only []
    rw [h2]
  · intro fields h1 h2 h3
    have hnone : fields.find? (fun f => !recipeAttrNames.contains (stripDirection f)) = none := by
      apply List.find?_eq_none.mpr
      intro f hf
      simp only [h2 f hf, Bool.not_true]
      exact Bool.false_ne_true
    unfold validate_order_by
    rw [h1]
    simp only []
    rw [hnone]
    simp only []
    rw [if_pos h3]
  · intro fields h1 hne h2
    unfold RecipeFilterStandard.sort
    rw [h1]
    have htruthy : pyTruthyOptList (some fields) = true := by
      cases fields with
      | nil => exact absurd rfl hne
      | cons a l => rfl
    simp only [htruthy, Bool.not_true, Bool.false_eq_true, ite_false]
    have hok := sortFields_ok fields h2
    cases hsf : RecipeFilterStandard.sort.sortFields fields with
    | error e =>
      rw [hsf] at hok
      simp [Except.isOk, Except.toBool] at hok
    | ok keys =>
      simp only [Option.getD_some]
      rw [hsf]
      rfl

/-- Witness for C5 amended: sorting by the non-attribute `nope` yields the
validation error naming it, and sorting by the attribute `-difficulty` passes
validation and the sort step. -/
theorem C5_witness :
    get_recipes exStore { title__like := none, order_by := some ["nope"] }
        { ingredient_id := none }
      = .error (.validation "nope" "is not a valid ordering field") ∧
    validate_order_by recipeAttrNames (some ["-difficulty"]) = .ok (some ["-difficulty"]) ∧
    (RecipeFilterStandard.sort { title__like := none, order_by := some ["-difficulty"] }
        baseRecipeQuery).isOk = true :=
  ⟨(C5_amended_sort_validation exStore
      { title__like := none, order_by := some ["nope"] } { ingredient_id := none }).1
    ["nope"] "nope" rfl (by rfl),
   (C5_amended_sort_validation exStore
      { title__like := none, order_by := some ["-difficulty"] } { ingredient_id := none }).2.1
    ["-difficulty"] rfl (by decide) (by decide),
   (C5_amended_sort_validation exStore
      { title__like := none, order_by := some ["-difficulty"] } { ingredient_id := none }).2.2
    ["-difficulty"] rfl (by decide) (by decide)⟩

/-! ### C3 — the no-filter, no-sort list -/

/-- Counterexample to C3 as stated: in a store whose rows are not in
ascending-id order, the list request with no filter and no sort returns the
rows exactly as stored — recipe 2 before recipe 1 — because
`RecipeFilterStandard.sort` adds no ordering clause when `order_by` is absent;
the result is not ordered by id ascending. -/
theorem C3_counterexample :
    get_recipes outOfOrderStore { title__like := none, order_by := none }
        { ingredient_id := none }
      = .ok [exRecipe2, exRecipe1] ∧
    [exRecipe2, exRecipe1].map (fun r => r.id) = [2, 1] ∧
    ¬ ([2, 1] : List Int).Pairwise (fun a b => a ≤ b) := by
  refine ⟨rfl, rfl, ?_⟩
  decide

/-- C3 amended: with no filter and no sort specified, the list statement is
unfiltered and returns every recipe in the store, in the store's row order; no
ordering directive is issued, so the result is ascending by id exactly when
the table rows already are. -/
theorem C3_amended_unordered (s : Store) :
    get_recipes s { title__like := none, order_by := none } { ingredient_id := none }
      = .ok s.recipes :=
  rfl

/-- Witness for C3 amended: on the concrete out-of-order store the no-filter,
no-sort list returns the rows as stored. -/
theorem C3_witness :
    get_recipes outOfOrderStore { title__like := none, order_by := none }
        { ingredient_id := none }
      = .ok outOfOrderStore.recipes :=
  C3_amended_unordered outOfOrderStore

/-! ### C2 — full replacement of allergens and ingredient lines on update -/

/-- What a successful run of the ingredient loop guarantees: the built rows
carry the submitted (ingredient_id, quantity, measurement) triples in
submitted order, and every built row belongs to the target recipe. -/
theorem buildLines_ok_specs (s : Store) (rid : Int) :
    ∀ (ds : List RecipeIngredientCreate) (nid : Int) (ls : List RecipeIngredient),
      buildLines s rid ds nid = .ok ls →
      ls.map lineSpec = ds.map (fun d => (d.ingredient_id, d.quantity, d.measurement)) ∧
      ∀ ri ∈ ls, ri.recipe_id = rid := by
  intro ds
  induction ds with
  | nil =>
    intro nid ls h
    unfold buildLines at h
    injection h with h
    subst h
    exact ⟨rfl, by intro ri hri; exact absurd hri (List.not_mem_nil ri)⟩
  | cons d rest ih =>
    intro nid ls h
    unfold buildLines at h
    cases hi : findIngredient s d.ingredient_id with
    | none => rw [hi] at h; exact absurd h (by simp)
    | some ing =>
      rw [hi] at h
      simp only [] at h
      cases hb : buildLines s rid rest (nid + 1) with
      | error e => rw [hb] at h; exact absurd h (by simp)
      | ok ls' =>
        rw [hb] at h
        injection h with h
        subst h
        obtain ⟨h1, h2⟩ := ih (nid + 1) ls' hb
        refine ⟨?_, ?_⟩
        · simp only [List.map_cons, h1]
          rfl
        · intro ri hri
          rcases List.mem_cons.mp hri with rfl | hri
          · rfl
          · exact h2 ri hri

/-- A successful `update_recipe` produced its result store by replacing the
target recipe's association rows and line items wholesale. -/
theorem update_recipe_ok_state (s s' : Store) (rid userId : Int) (u : RecipeUpdate)
    (h : update_recipe s rid u userId = .ok s') :
    ∃ newLines,
      buildLines s rid u.recipe_ingredients (nextLineId s) = .ok newLines ∧
      s'.recipe_allergens = s.recipe_allergens.filter (fun p => p.1 != rid)
          ++ (selectSubmittedAllergens s u.allergen_ids).map (fun a => (rid, a.id)) ∧
      s'.recipe_ingredients
        = s.recipe_ingredients.filter (fun ri => ri.recipe_id != rid) ++ newLines := by
  unfold update_recipe at h
  cases hf : findRecipe s rid with
  | none => rw [hf] at h; exact absurd h (by simp)
  | some recipe =>
    rw [hf] at h
    simp only [] at h
    by_cases ha : (recipe.author_id != userId) = true
    · rw [if_pos ha] at h
      exact absurd h (by simp)
    · rw [if_neg ha] at h
      cases hc : resolveCuisine s u.cuisine_id with
      | error e => rw [hc] at h; exact absurd h (by simp)
      | ok cuisine =>
        rw [hc] at h
        simp only [] at h
        cases hb : buildLines s rid u.recipe_ingredients (nextLineId s) with
        | error e => rw [hb] at h; exact absurd h (by simp)
        | ok newLines =>
          rw [hb] at h
          injection h with h
          subst h
          exact ⟨newLines, rfl, rfl, rfl⟩

/-- The submitted-allergen selection is the plain `IN`-filter over the
allergen table, also when the submission is empty. -/
theorem selectSubmittedAllergens_eq (s : Store) (ids : List Int) :
    selectSubmittedAllergens s ids = s.allergens.filter (fun a => ids.contains a.id) := by
  unfold selectSubmittedAllergens selectAllergensIn
  cases ids with
  | nil => simp
  | cons i l => rfl

/-- Counterexample to C2 as stated: user 1 successfully updates recipe 1
submitting `allergen_ids = [999]`, an id with no allergen row; the update
succeeds and the post-update allergen set is empty, not `{999}` — the
submitted set and the resulting set differ. -/
theorem C2_counterexample :
    (update_recipe exStore 1 exUpdateMissingAllergen 1).isOk = true ∧
    exUpdateMissingAllergen.allergen_ids = [999] ∧
    allergenIdsOf (commitState exStore (update_recipe exStore 1 exUpdateMissingAllergen 1)) 1
      = [] :=
  ⟨rfl, rfl, rfl⟩

/-- C2 amended: for every successful recipe update, the post-update allergen
set equals the set of *existing* allergens whose id is among the submitted
`allergen_ids` — submitted ids without a matching allergen row are silently
dropped; an empty or absent submission yields the empty set — and the
post-update ingredient-line list equals exactly the submitted list in
submitted order, all prior line items discarded. -/
theorem C2_amended_full_replace (s s' : Store) (rid userId : Int) (u : RecipeUpdate)
    (h : update_recipe s rid u userId = .ok s') :
    allergenIdsOf s' rid
        = (s.allergens.filter (fun a => u.allergen_ids.contains a.id)).map (fun a => a.id) ∧
    lineSpecsOf s' rid
        = u.recipe_ingredients.map (fun d => (d.ingredient_id, d.quantity, d.measurement)) := by
  obtain ⟨newLines, hb, hra, hri⟩ := update_recipe_ok_state s s' rid userId u h
  obtain ⟨hspec, hrid⟩ := buildLines_ok_specs s rid u.recipe_ingredients (nextLineId s) newLines hb
  constructor
  · unfold allergenIdsOf
    rw [hra, List.filter_append, List.map_append]
    have hold : (s.recipe_allergens.filter (fun p => p.1 != rid)).filter
        (fun p => p.1 == rid) = [] := by
      apply List.filter_eq_nil_iff.mpr
      intro p hp
      have hne := (List.mem_filter.mp hp).2
      simp only [bne_iff_ne] at hne
      simp [hne]
    have hnew : ((selectSubmittedAllergens s u.allergen_ids).map
          (fun a => ((rid, a.id) : Int × Int))).filter (fun p => p.1 == rid)
        = (selectSubmittedAllergens s u.allergen_ids).map (fun a => ((rid, a.id) : Int × Int)) := by
      apply List.filter_eq_self.mpr
      intro p hp
      obtain ⟨a, _, rfl⟩ := List.mem_map.mp hp
      simp
    rw [hold, hnew, List.map_map, selectSubmittedAllergens_eq]
    rfl
  · unfold lineSpecsOf linesOf
    rw [hri, List.filter_append, List.map_append]
    have hold : (s.recipe_ingredients.filter (fun ri => ri.recipe_id != rid)).filter
        (fun ri => ri.recipe_id == rid) = [] := by
      apply List.filter_eq_nil_iff.mpr
      intro ri hmem
      have hne := (List.mem_filter.mp hmem).2
      simp only [bne_iff_ne] at hne
      simp [hne]
    have hnew : newLines.filter (fun ri => ri.recipe_id == rid) = newLines := by
      apply List.filter_eq_self.mpr
      intro ri hmem
      simp [hrid ri hmem]
    rw [hold, hnew, hspec]
    rfl

/-- A well-formed update payload: new cuisine, one allergen, one line. -/
def exUpdateGood : RecipeUpdate :=
  { title := "Borscht v2", description := "Better beet soup", cooking_time := 60,
    difficulty := 4, cuisine_id := some 1, allergen_ids := [1],
    recipe_ingredients := [{ ingredient_id := 2, quantity := 7, measurement := 1 }] }

/-- The store after user 1 successfully applies `exUpdateGood` to recipe 1. -/
def exUpdatedStore : Store :=
  commitState exStore (update_recipe exStore 1 exUpdateGood 1)

/-- Witness for C2 amended: the successful concrete update replaces recipe 1's
allergen set and line list exactly as submitted. -/
theorem C2_witness :
    allergenIdsOf exUpdatedStore 1
        = (exStore.allergens.filter
            (fun a => exUpdateGood.allergen_ids.contains a.id)).map (fun a => a.id) ∧
    lineSpecsOf exUpdatedStore 1
        = exUpdateGood.recipe_ingredients.map
            (fun d => (d.ingredient_id, d.quantity, d.measurement)) :=
  C2_amended_full_replace exStore exUpdatedStore 1 1 exUpdateGood (by rfl)

/-! ### C6 — missing references in create/update payloads -/

/-- The ingredient loop fails on the *first* submitted line whose ingredient
id has no row, naming that id — the remainder of the list is never
processed. -/
theorem buildLines_first_missing (s : Store) (rid : Int) :
    ∀ (pre : List RecipeIngredientCreate) (d : RecipeIngredientCreate)
      (rest : List RecipeIngredientCreate) (nid : Int),
      (∀ p ∈ pre, (findIngredient s p.ingredient_id).isSome = true) →
      findIngredient s d.ingredient_id = none →
      buildLines s rid (pre ++ d :: rest) nid
        = .error (.notFound "Ingredient" d.ingredient_id) := by
  intro pre
  induction pre with
  | nil =>
    intro d rest nid _ hd
    simp only [List.nil_append]
    unfold buildLines
    rw [hd]
  | cons p pre ih =>
    intro d rest nid hpre hd
    simp only [List.cons_append]
    unfold buildLines
    have hp := hpre p (List.mem_cons_self p pre)
    obtain ⟨ing, hing⟩ := Option.isSome_iff_exists.mp hp
    rw [hing]
    simp only []
    rw [ih d rest (nid + 1) (fun q hq => hpre q (List.mem_cons_of_mem p hq)) hd]

/-- When every submitted line's ingredient id has a row, the ingredient loop
succeeds. -/
theorem buildLines_all_found (s : Store) (rid : Int) :
    ∀ (ds : List RecipeIngredientCreate) (nid : Int),
      (∀ p ∈ ds, (findIngredient s p.ingredient_id).isSome = true) →
      (buildLines s rid ds nid).isOk = true := by
  intro ds
  induction ds with
  | nil => intro nid _; rfl
  | cons d rest ih =>
    intro nid hall
    unfold buildLines
    obtain ⟨ing, hing⟩ :=
      Option.isSome_iff_exists.mp (hall d (List.mem_cons_self d rest))
    rw [hing]
    simp only []
    have hrest := ih (nid + 1) (fun q hq => hall q (List.mem_cons_of_mem d hq))
    cases hb : buildLines s rid rest (nid + 1) with
    | error e =>
      rw [hb] at hrest
      simp [Except.isOk, Except.toBool] at hrest
    | ok ls => rfl

/-- A truthy submitted cuisine id with no row makes cuisine resolution fail
with the 404 naming that id. -/
theorem resolveCuisine_missing (s : Store) (cid? : Option Int)
    (htruthy : pyTruthyOptInt cid? = true)
    (hmiss : findCuisine s (cid?.getD 0) = none) :
    resolveCuisine s cid? = .error (.notFound "Cuisine" (cid?.getD 0)) := by
  unfold resolveCuisine
  rw [if_pos htruthy, hmiss]

/-- Counterexample to C6 as stated: user 1 successfully updates recipe 1 with
`allergen_ids = [999]` although no allergen 999 exists — the missing allergen
reference is silently ignored (the allergen set just comes out empty), not
reported as a not-found error. -/
theorem C6_counterexample :
    (findAllergen exStore 999).isNone = true ∧
    exUpdateMissingAllergen.allergen_ids = [999] ∧
    (update_recipe exStore 1 exUpdateMissingAllergen 1).isOk = true ∧
    allergenIdsOf (commitState exStore (update_recipe exStore 1 exUpdateMissingAllergen 1)) 1
      = [] :=
  ⟨rfl, rfl, rfl, rfl⟩

/-- C6 amended: in create and update payloads a non-existent cuisine id fails
with a not-found error naming it at the point it is resolved, and the first
non-existent ingredient id fails with a not-found error naming it,
short-circuiting the rest of the ingredient list; allergen ids, however, are
never resolved individually — missing allergen ids are silently dropped, and
with cuisine and ingredients resolvable the operation succeeds whatever
`allergen_ids` contains. -/
theorem C6_missing_reference_errors (s : Store) (rid userId : Int)
    (u : RecipeUpdate) (c : RecipeCreate) :
    (∀ r, findRecipe s rid = some r → r.author_id = userId →
      pyTruthyOptInt u.cuisine_id = true → findCuisine s (u.cuisine_id.getD 0) = none →
      update_recipe s rid u userId = .error (.notFound "Cuisine" (u.cuisine_id.getD 0))) ∧
    (∀ r pre d rest, findRecipe s rid = some r → r.author_id = userId →
      (resolveCuisine s u.cuisine_id).isOk = true →
      u.recipe_ingredients = pre ++ d :: rest →
      (∀ p ∈ pre, (findIngredient s p.ingredient_id).isSome = true) →
      findIngredient s d.ingredient_id = none →
      update_recipe s rid u userId = .error (.notFound "Ingredient" d.ingredient_id)) ∧
    (∀ r, findRecipe s rid = some r → r.author_id = userId →
      (resolveCuisine s u.cuisine_id).isOk = true →
      (∀ p ∈ u.recipe_ingredients, (findIngredient s p.ingredient_id).isSome = true) →
      (update_recipe s rid u userId).isOk = true) ∧
    (pyTruthyOptInt c.cuisine_id = true → findCuisine s (c.cuisine_id.getD 0) = none →
      create_recipe s c userId = .error (.notFound "Cuisine" (c.cuisine_id.getD 0))) ∧
    (∀ pre d rest, (resolveCuisine s c.cuisine_id).isOk = true →
      c.recipe_ingredients = pre ++ d :: rest →
      (∀ p ∈ pre, (findIngredient s p.ingredient_id).isSome = true) →
      findIngredient s d.ingredient_id = none →
      create_recipe s c userId = .error (.notFound "Ingredient" d.ingredient_id)) ∧
    ((resolveCuisine s c.cuisine_id).isOk = true →
      (∀ p ∈ c.recipe_ingredients, (findIngredient s p.ingredient_id).isSome = true) →
      (create_recipe s c userId).isOk = true) := by
  have hauthor : ∀ r : Recipe, r.author_id = userId → (r.author_id != userId) = false := by
    intro r hr
    simp [hr]
  refine ⟨?_, ?_, ?_, ?_, ?_, ?_⟩
  · intro r hfind hauth htruthy hmiss
    unfold update_recipe
    rw [hfind]
    simp only []
    rw [hauthor r hauth]
    simp only [Bool.false_eq_true, ite_false]
    rw [resolveCuisine_missing s u.cuisine_id htruthy hmiss]
  · intro r pre d rest hfind hauth hcu hsplit hpre hd
    unfold update_recipe
    rw [hfind]
    simp only []
    rw [hauthor r hauth]
    simp only [Bool.false_eq_true, ite_false]
    obtain ⟨cu, hcu'⟩ : ∃ cu, resolveCuisine s u.cuisine_id = .ok cu := by
      cases hres : resolveCuisine s u.cuisine_id with
      | error e => rw [hres] at hcu; simp [Except.isOk, Except.toBool] at hcu
      | ok cu => exact ⟨cu, rfl⟩
    rw [hcu']
    simp only []
    rw [hsplit, buildLines_first_missing s rid pre d rest (nextLineId s) hpre hd]
  · intro r hfind hauth hcu hall
    unfold update_recipe
    rw [hfind]
    simp only []
    rw [hauthor r hauth]
    simp only [Bool.false_eq_true, ite_false]
    obtain ⟨cu, hcu'⟩ : ∃ cu, resolveCuisine s u.cuisine_id = .ok cu := by
      cases hres : resolveCuisine s u.cuisine_id with
      | error e => rw [hres] at hcu; simp [Except.isOk, Except.toBool] at hcu
      | ok cu => exact ⟨cu, rfl⟩
    rw [hcu']
    simp only []
    have hlines := buildLines_all_found s rid u.recipe_ingredients (nextLineId s) hall
    cases hb : buildLines s rid u.recipe_ingredients (nextLineId s) with
    | error e =>
      rw [hb] at hlines
      simp [Except.isOk, Except.toBool] at hlines
    | ok ls => rfl
  · intro htruthy hmiss
    unfold create_recipe
    rw [resolveCuisine_missing s c.cuisine_id htruthy hmiss]
  · intro pre d rest hcu hsplit hpre hd
    unfold create_recipe
    obtain ⟨cu, hcu'⟩ : ∃ cu, resolveCuisine s c.cuisine_id = .ok cu := by
      cases hres : resolveCuisine s c.cuisine_id with
      | error e => rw [hres] at hcu; simp [Except.isOk, Except.toBool] at hcu
      | ok cu => exact ⟨cu, rfl⟩
    rw [hcu']
    simp only []
    rw [hsplit,
      buildLines_first_missing s (nextRecipeId s) pre d rest (nextLineId s) hpre hd]
  · intro hcu hall
    unfold create_recipe
    obtain ⟨cu, hcu'⟩ : ∃ cu, resolveCuisine s c.cuisine_id = .ok cu := by
      cases hres : resolveCuisine s c.cuisine_id with
      | error e => rw [hres] at hcu; simp [Except.isOk, Except.toBool] at hcu
      | ok cu => exact ⟨cu, rfl⟩
    rw [hcu']
    simp only []
    have hlines := buildLines_all_found s (nextRecipeId s) c.recipe_ingredients (nextLineId s) hall
    cases hb : buildLines s (nextRecipeId s) c.recipe_ingredients (nextLineId s) with
    | error e =>
      rw [hb] at hlines
      simp [Except.isOk, Except.toBool] at hlines
    | ok ls => rfl

/-- An update payload whose second ingredient line references the missing
ingredient id 42. -/
def exUpdateMissingIngredient : RecipeUpdate :=
  { title := "Borscht", description := "Beet soup", cooking_time := 90, difficulty := 3,
    cuisine_id := some 7, allergen_ids := [],
    recipe_ingredients :=
      [{ ingredient_id := 1, quantity := 1, measurement := 1 },
       { ingredient_id := 42, quantity := 2, measurement := 2 }] }

/-- Witness for C6 amended: a missing cuisine id 7 yields the cuisine 404; a
payload whose second line references the missing ingredient 42 yields the
ingredient 404 naming 42; and with resolvable references the update
succeeds. -/
theorem C6_witness :
    update_recipe exStore 1 exUpdateMissingIngredient 1
      = .error (.notFound "Cuisine" 7) ∧
    update_recipe exStore 1 { exUpdateMissingIngredient with cuisine_id := none } 1
      = .error (.notFound "Ingredient" 42) ∧
    (update_recipe exStore 1 exUpdateGood 1).isOk = true :=
  ⟨(C6_missing_reference_errors exStore 1 1 exUpdateMissingIngredient
      { title := "x", description := "x", cooking_time := 1, difficulty := 1,
        cuisine_id := none, allergen_ids := [], recipe_ingredients := [] }).1
    exRecipe1 (by rfl) (by rfl) (by rfl) (by rfl),
   (C6_missing_reference_errors exStore 1 1
      { exUpdateMissingIngredient with cuisine_id := none }
      { title := "x", description := "x", cooking_time := 1, difficulty := 1,
        cuisine_id := none, allergen_ids := [], recipe_ingredients := [] }).2.1
    exRecipe1 [{ ingredient_id := 1, quantity := 1, measurement := 1 }]
    { ingredient_id := 42, quantity := 2, measurement := 2 } []
    (by rfl) (by rfl) (by rfl) (by rfl) (by decide) (by rfl),
   (C6_missing_reference_errors exStore 1 1 exUpdateGood
      { title := "x", description := "x", cooking_time := 1, difficulty := 1,
        cuisine_id := none, allergen_ids := [], recipe_ingredients := [] }).2.2.1
    exRecipe1 (by rfl) (by rfl) (by rfl) (by decide)⟩

/-! ### C10 — the sub-listing deduplicates the join fan-out -/

/-- Deduplication only keeps rows of the input. -/
theorem dedupByIdAux_mem_sub (seen : List Int) (l : List Recipe) :
    ∀ r ∈ dedupByIdAux seen l, r ∈ l := by
  induction l generalizing seen with
  | nil => intro r hr; exact absurd hr (List.not_mem_nil r)
  | cons x xs ih =>
    intro r hr
    unfold dedupByIdAux at hr
    by_cases hx : (seen.contains x.id) = true
    · rw [if_pos hx] at hr
      exact List.mem_cons_of_mem x (ih seen r hr)
    · rw [if_neg hx] at hr
      rcases List.mem_cons.mp hr with rfl | hr
      · exact List.mem_cons_self r xs
      · exact List.mem_cons_of_mem x (ih (x.id :: seen) r hr)

/-- Deduplication never emits a row whose id was already seen. -/
theorem dedupByIdAux_not_seen (seen : List Int) (l : List Recipe) :
    ∀ r ∈ dedupByIdAux seen l, seen.contains r.id = false := by
  induction l generalizing seen with
  | nil => intro r hr; exact absurd hr (List.not_mem_nil r)
  | cons x xs ih =>
    intro r hr
    unfold dedupByIdAux at hr
    by_cases hx : (seen.contains x.id) = true
    · rw [if_pos hx] at hr
      exact ih seen r hr
    · rw [if_neg hx] at hr
      rcases List.mem_cons.mp hr with rfl | hr
      · exact Bool.not_eq_true _ ▸ (by simpa using hx)
      · have := ih (x.id :: seen) r hr
        simp only [List.contains_cons, Bool.or_eq_false_iff] at this
        exact this.2

/-- The ids of the deduplicated rows are pairwise distinct. -/
theorem dedupByIdAux_nodup (seen : List Int) (l : List Recipe) :
    ((dedupByIdAux seen l).map (fun r => r.id)).Nodup := by
  induction l generalizing seen with
  | nil => exact List.nodup_nil
  | cons x xs ih =>
    unfold dedupByIdAux
    by_cases hx : (seen.contains x.id) = true
    · rw [if_pos hx]
      exact ih seen
    · rw [if_neg hx]
      rw [List.map_cons]
      apply List.nodup_cons.mpr
      refine ⟨?_, ih (x.id :: seen)⟩
      intro hmem
      obtain ⟨r, hr, hid⟩ := List.mem_map.mp hmem
      have := dedupByIdAux_not_seen (x.id :: seen) xs r hr
      simp only [List.contains_cons, Bool.or_eq_false_iff] at this
      have hne := this.1
      rw [hid] at hne
      simp at hne

/-- When equal ids imply equal rows, deduplication keeps every row whose id
was not yet seen. -/
theorem dedupByIdAux_mem_full (seen : List Int) (l : List Recipe)
    (hinj : ∀ a ∈ l, ∀ b ∈ l, a.id = b.id → a = b) :
    ∀ r ∈ l, seen.contains r.id = false → r ∈ dedupByIdAux seen l := by
  induction l generalizing seen with
  | nil => intro r hr; exact absurd hr (List.not_mem_nil r)
  | cons x xs ih =>
    intro r hr hseen
    unfold dedupByIdAux
    have hinj' : ∀ a ∈ xs, ∀ b ∈ xs, a.id = b.id → a = b := by
      intro a ha b hb
      exact hinj a (List.mem_cons_of_mem x ha) b (List.mem_cons_of_mem x hb)
    by_cases hx : (seen.contains x.id) = true
    · rw [if_pos hx]
      rcases List.mem_cons.mp hr with rfl | hr'
      · rw [hseen] at hx
        exact absurd hx (by simp)
      · exact ih seen hinj' r hr' hseen
    · rw [if_neg hx]
      rcases List.mem_cons.mp hr with rfl | hr'
      · exact List.mem_cons_self r _
      · by_cases hid : r.id = x.id
        · have : r = x := hinj r (List.mem_cons_of_mem x hr') x (List.mem_cons_self x xs) hid
          subst this
          exact List.mem_cons_self r _
        · refine List.mem_cons_of_mem x (ih (x.id :: seen) hinj' r hr' ?_)
          simp only [List.contains_cons, Bool.or_eq_false_iff]
          exact ⟨by simp [hid], hseen⟩

/-- Membership in the filtering join's (sorted) row list: exactly the recipes
with at least one line item for the given ingredient. -/
theorem subListRows_mem (s : Store) (ingId : Int) (r : Recipe) :
    r ∈ subListRows s ingId ↔
      (r ∈ s.recipes ∧ ∃ ri ∈ s.recipe_ingredients,
        ri.recipe_id = r.id ∧ ri.ingredient_id = ingId) := by
  unfold subListRows
  rw [(List.perm_insertionSort _ _).mem_iff, List.mem_flatMap]
  constructor
  · rintro ⟨a, ha, hr⟩
    obtain ⟨ri, hri, heq⟩ := List.mem_map.mp hr
    have hf := List.mem_filter.mp hri
    have hp := hf.2
    simp only [Bool.and_eq_true, beq_iff_eq] at hp
    subst heq
    exact ⟨ha, ri, hf.1, hp.1, hp.2⟩
  · rintro ⟨hr, ri, hri, h1, h2⟩
    refine ⟨r, hr, ?_⟩
    apply List.mem_map.mpr
    refine ⟨ri, List.mem_filter.mpr ⟨hri, ?_⟩, rfl⟩
    simp [h1, h2]

/-- C10: when recipe ids are unique (the primary key), the deduplicated
sub-listing row set contains each matching recipe exactly once — its id list
is duplicate-free, and a recipe is present iff it is stored and has at least
one line item referencing the given ingredient, regardless of how many such
line items fan the join out. -/
theorem C10_no_fanout (s : Store) (ingId : Int)
    (hids : (s.recipes.map (fun r => r.id)).Nodup) :
    ((subListRecipes s ingId).map (fun r => r.id)).Nodup ∧
    ∀ r, r ∈ subListRecipes s ingId ↔
      (r ∈ s.recipes ∧ ∃ ri ∈ s.recipe_ingredients,
        ri.recipe_id = r.id ∧ ri.ingredient_id = ingId) := by
  have hinj : ∀ a ∈ subListRows s ingId, ∀ b ∈ subListRows s ingId, a.id = b.id → a = b := by
    intro a ha b hb heq
    have ha' := ((subListRows_mem s ingId a).mp ha).1
    have hb' := ((subListRows_mem s ingId b).mp hb).1
    exact List.inj_on_of_nodup_map hids ha' hb' heq
  constructor
  · exact dedupByIdAux_nodup [] (subListRows s ingId)
  · intro r
    constructor
    · intro hr
      exact (subListRows_mem s ingId r).mp
        (dedupByIdAux_mem_sub [] (subListRows s ingId) r hr)
    · intro hr
      exact dedupByIdAux_mem_full [] (subListRows s ingId) hinj r
        ((subListRows_mem s ingId r).mpr hr) rfl

/-- Witness for C10: in `exStore`, recipe 1 has two line items for
ingredient 2, yet it appears exactly once in the sub-listing rows. -/
theorem C10_witness :
    ((subListRecipes exStore 2).map (fun r => r.id)).Nodup ∧
    (exRecipe1 ∈ subListRecipes exStore 2 ↔
      (exRecipe1 ∈ exStore.recipes ∧ ∃ ri ∈ exStore.recipe_ingredients,
        ri.recipe_id = exRecipe1.id ∧ ri.ingredient_id = 2)) :=
  ⟨(C10_no_fanout exStore 2 (by decide)).1,
   (C10_no_fanout exStore 2 (by decide)).2 exRecipe1⟩

end RecipeApp
